import Mathlib

/-!
Verification of the diveops pricing calculation core
(`src/diveops/operations/pricing/calculators.py` and the delegation policy of
`src/diveops/operations/pricing/rust_client.py`).

Monetary amounts are modelled as exact rationals (`ℚ`): Python `Decimal`
values are arbitrary-precision decimal fractions, and every quantity the
calculators build from their inputs is an exact rational of the input data.
Fallible calculations return `Except PricingError`.
-/

namespace Diveops

/-- Error taxonomy of the pricing core.  The first four constructors mirror
the exception classes imported by `calculators.py`
(`MissingVendorAgreementError`, `MissingPriceError`, `CurrencyMismatchError`,
`ConfigurationError`).  `invalidInput` is Modelled from the spec: the
`InvalidInput` taxonomy value of spec section 7 (the exceptions module itself
is not under `src/`); it is included so that statements about which taxonomy
value an operation raises can be expressed. -/
inductive PricingError where
  | missingVendorAgreement
  | missingPrice
  | currencyMismatch
  | configurationError
  | invalidInput
  deriving DecidableEq

/-- A `django_money.Money` value: an exact decimal amount tagged with a
currency code. -/
structure Money where
  amount : ℚ
  currency : String
  deriving DecidableEq

/-- Round half to even of a rational to an integer: the model of one
`Decimal.quantize` step with `ROUND_HALF_EVEN` applied to the scaled value. -/
def roundHalfEven (x : ℚ) : ℤ :=
  if x - ⌊x⌋ < 1 / 2 then ⌊x⌋
  else if 1 / 2 < x - ⌊x⌋ then ⌊x⌋ + 1
  else if ⌊x⌋ % 2 = 0 then ⌊x⌋ else ⌊x⌋ + 1

/-- `round_money` of `calculators.py`: quantize to `places` decimal places
with banker's rounding (`amount.quantize(Decimal("0." + "0"*places),
rounding=ROUND_HALF_EVEN)`). -/
def round_money (amount : ℚ) (places : ℕ) : ℚ :=
  (roundHalfEven (amount * 10 ^ places) : ℚ) / 10 ^ places

/-- Truncation toward zero: the model of Python `int(d)` on a `Decimal`. -/
def truncQ (x : ℚ) : ℤ :=
  if 0 ≤ x then ⌊x⌋ else ⌈x⌉

/-- Add `inc` to the first `k` entries of a list: the model of the loop
`for i in range(k): amounts[i] += increment` in `allocate_shared_costs`. -/
def addToFirst (inc : ℚ) : ℕ → List ℚ → List ℚ
  | 0, l => l
  | _ + 1, [] => []
  | k + 1, x :: xs => (x + inc) :: addToFirst inc k xs

/-- `allocate_shared_costs` of `calculators.py` (the local implementation,
lines 457-480): split `shared_total` evenly with banker's rounding, then
distribute the rounding remainder in 0.01 increments to the first divers.
`adjustments_needed` is `abs(int(remainder / Decimal("0.01")))` of the
source. -/
def allocate_shared_costs (shared_total : ℚ) (diver_count : ℤ) : ℚ × List ℚ :=
  if diver_count ≤ 0 then (0, [])
  else
    let per_diver := round_money (shared_total / (diver_count : ℚ)) 2
    let allocated := per_diver * (diver_count : ℚ)
    let remainder := shared_total - allocated
    let amounts := List.replicate diver_count.toNat per_diver
    if remainder = 0 then (per_diver, amounts)
    else
      let increment : ℚ := if 0 < remainder then 1 / 100 else -(1 / 100)
      let adjustments_needed : ℕ := (truncQ (remainder / (1 / 100))).natAbs
      (per_diver, addToFirst increment (min adjustments_needed diver_count.toNat) amounts)

/-- Outcome of the call into `rust_client.allocate_shared_costs`:
either a parsed response, the `RustPricingUnavailable` exception the client
raises on `httpx.RequestError` (network unavailability, lines 320-326 of
`rust_client.py`), or a structured `RustPricingError`. -/
inductive RustAllocOutcome where
  | ok (per_diver : ℚ) (amounts : List ℚ)
  | unavailable
  | rustError
  deriving DecidableEq

/-- The delegation wrapper of `allocate_shared_costs` (lines 442-458 of
`calculators.py`): when `USE_RUST_PRICING` is set, try the Rust back-end and
fall back to the local implementation when it is unavailable or errors. -/
def allocate_shared_costs_dispatch (use_rust_pricing : Bool)
    (rust : RustAllocOutcome) (shared_total : ℚ) (diver_count : ℤ) :
    ℚ × List ℚ :=
  if use_rust_pricing then
    match rust with
    | .ok per_diver amounts => (per_diver, amounts)
    | .unavailable => allocate_shared_costs shared_total diver_count
    | .rustError => allocate_shared_costs shared_total diver_count
  else
    allocate_shared_costs shared_total diver_count

/-- A term value together with whether parsing it succeeds.  `malformed`
stands for a value on which the source's conversion raises one of the
exception classes its `except (ValueError, TypeError)` clause catches. -/
inductive Parsed (α : Type) where
  | ok (val : α)
  | malformed
  deriving DecidableEq

/-- The `boat_charter` entry of an agreement's terms, as read by
`calculate_boat_cost`.  Each field is `none` when the key is absent from the
mapping.  `base_cost` and `overage_per_diver` are read with
`Decimal(str(...))`, which on any term value either succeeds or raises
`decimal.InvalidOperation` — an `ArithmeticError` that the source's
`except (ValueError, TypeError)` clause does not catch — so present numeric
values are modelled as rationals.  `included_divers` is read with `int(...)`,
whose failures (`ValueError`/`TypeError`) the clause does catch, so it is
modelled as `Parsed`.  `currency` is used verbatim, never parsed. -/
structure BoatTier where
  base_cost : Option ℚ
  included_divers : Option (Parsed ℤ)
  overage_per_diver : Option ℚ
  currency : Option String
  deriving DecidableEq

/-- The terms mapping of a located vendor agreement, restricted to the key
`calculate_boat_cost` reads.  `boat_charter = none` models both an absent
key and a present falsy (empty) value, since `if not boat_tier` treats the
two alike. -/
structure AgreementTerms where
  boat_charter : Option BoatTier
  deriving DecidableEq

/-- `BoatCostResult` of `calculators.py` (the `agreement_id` plumbing field
is omitted: the embedding starts after the agreement lookup). -/
structure BoatCostResult where
  total : Money
  per_diver : Money
  base_cost : Money
  overage_count : ℤ
  overage_per_diver : Money
  included_divers : ℤ
  diver_count : ℤ
  deriving DecidableEq

/-- `calculate_boat_cost` of `calculators.py`, local path (lines 120-187),
starting from the agreement-lookup outcome: `agreement = none` models the
case where no vendor agreement is found for the site at `as_of`.  Field
defaults mirror the source: `boat_tier.get("base_cost", "0")`,
`boat_tier.get("included_divers", 4)`, `boat_tier.get("overage_per_diver",
"0")`, `boat_tier.get("currency", "MXN")`. -/
def calculate_boat_cost (agreement : Option AgreementTerms) (diver_count : ℤ) :
    Except PricingError BoatCostResult :=
  if diver_count ≤ 0 then .error .configurationError
  else
    match agreement with
    | none => .error .missingVendorAgreement
    | some terms =>
      match terms.boat_charter with
      | none => .error .configurationError
      | some boat_tier =>
        match boat_tier.included_divers.getD (.ok 4) with
        | .malformed => .error .configurationError
        | .ok included_divers =>
          let base_cost := boat_tier.base_cost.getD 0
          let overage_per_diver := boat_tier.overage_per_diver.getD 0
          let currency := boat_tier.currency.getD "MXN"
          let tiered : ℚ × ℤ :=
            if diver_count ≤ included_divers then (base_cost, 0)
            else (base_cost + ((diver_count - included_divers : ℤ) : ℚ) * overage_per_diver,
                  diver_count - included_divers)
          let per_diver_amount := round_money (tiered.1 / (diver_count : ℚ)) 2
          .ok ⟨⟨tiered.1, currency⟩, ⟨per_diver_amount, currency⟩, ⟨base_cost, currency⟩,
               tiered.2, ⟨overage_per_diver, currency⟩, included_divers, diver_count⟩

/-- One entry of the `gas_fills` mapping of a gas vendor agreement's terms,
as read by `calculate_gas_fills`; fields are `none` when the key is absent
(the source then defaults `cost`/`charge` to `"0"` and `currency` to
`"MXN"`). -/
structure GasPricing where
  cost : Option ℚ
  charge : Option ℚ
  currency : Option String
  deriving DecidableEq

/-- The terms of a located gas vendor agreement, restricted to the
`gas_fills` mapping; an entry that is present but falsy (empty) is modelled
as absent, since `if not gas_pricing` treats the two alike. -/
structure GasTerms where
  gas_fills : List (String × GasPricing)
  deriving DecidableEq

/-- `GasFillResult` of `calculators.py` (identifier plumbing fields
`agreement_id` and `price_rule_id` omitted). -/
structure GasFillResult where
  cost_per_fill : Money
  charge_per_fill : Money
  total_cost : Money
  total_charge : Money
  fills_count : ℤ
  gas_type : String
  deriving DecidableEq

/-- `calculate_gas_fills` of `calculators.py`, local path (lines 250-311),
starting from the agreement-lookup outcome. -/
def calculate_gas_fills (agreement : Option GasTerms) (gas_type : String)
    (fills_count : ℤ) (customer_charge_amount : Option ℚ) :
    Except PricingError GasFillResult :=
  if fills_count ≤ 0 then .error .configurationError
  else
    match agreement with
    | none => .error .missingVendorAgreement
    | some terms =>
      match terms.gas_fills.lookup gas_type.toLower with
      | none => .error .configurationError
      | some gas_pricing =>
        let cost_per_fill := gas_pricing.cost.getD 0
        let currency := gas_pricing.currency.getD "MXN"
        let charge_per_fill :=
          match customer_charge_amount with
          | some q => q
          | none => gas_pricing.charge.getD 0
        .ok ⟨⟨cost_per_fill, currency⟩, ⟨charge_per_fill, currency⟩,
             ⟨cost_per_fill * (fills_count : ℚ), currency⟩,
             ⟨charge_per_fill * (fills_count : ℚ), currency⟩,
             fills_count, gas_type⟩

/-- A `Price` record as consumed by `resolve_component_pricing`: a priced
entry for a catalog item, scoped by optional agreement/party/organization
references, with a priority and a validity window.  Identifiers are modelled
as natural numbers. -/
structure Price where
  catalog_item : ℕ
  agreement : Option ℕ
  party : Option ℕ
  organization : Option ℕ
  priority : ℤ
  valid_from : ℤ
  valid_until : Option ℤ
  amount : ℚ
  currency : String
  cost_amount : Option ℚ
  cost_currency : Option String
  pk : ℕ
  deriving DecidableEq

/-- Modelled from the spec: the `Price` queryset filter `.current(as_of)`
(the `diveops.pricing.models` module is not under `src/`); a price is
applicable when its validity window contains `as_of`. -/
def price_current (as_of : ℤ) (p : Price) : Bool :=
  decide (p.valid_from ≤ as_of) &&
    (match p.valid_until with
     | none => true
     | some u => decide (as_of < u))

/-- The base queryset of `resolve_component_pricing`:
`Price.objects.filter(catalog_item=catalog_item).current(as_of=check_time)`. -/
def currentPrices (prices : List Price) (catalog_item : ℕ) (as_of : ℤ) : List Price :=
  prices.filter (fun p => decide (p.catalog_item = catalog_item) && price_current as_of p)

/-- Tier 1 filter of `resolve_component_pricing`:
`base_qs.filter(agreement=agreement)`. -/
def agreementTier (qs : List Price) (a : ℕ) : List Price :=
  qs.filter (fun p => decide (p.agreement = some a))

/-- Tier 2 filter: `base_qs.filter(party=party, agreement__isnull=True)`. -/
def partyTier (qs : List Price) (pa : ℕ) : List Price :=
  qs.filter (fun p => decide (p.party = some pa ∧ p.agreement = none))

/-- Tier 3 filter: `base_qs.filter(organization=dive_shop,
party__isnull=True, agreement__isnull=True)`. -/
def orgTier (qs : List Price) (o : ℕ) : List Price :=
  qs.filter (fun p => decide (p.organization = some o ∧ p.party = none ∧ p.agreement = none))

/-- Modelled from the spec: tier 4 queryset `base_qs.global_scope()` (the
`Price` queryset is not under `src/`); spec section 4.2 defines the global
scope as no organization, no party, no agreement. -/
def globalTier (qs : List Price) : List Price :=
  qs.filter (fun p => decide (p.organization = none ∧ p.party = none ∧ p.agreement = none))

/-- The comparison behind `.order_by("-priority", "-valid_from")`: keep the
candidate with the higher priority, breaking ties by the more recent
validity start. -/
def betterPrice (q p : Price) : Price :=
  if q.priority < p.priority ∨ (q.priority = p.priority ∧ q.valid_from < p.valid_from)
  then p else q

/-- `.order_by("-priority", "-valid_from").first()` on a tier's matches:
`none` on an empty queryset, otherwise a maximal element. -/
def pickBest : List Price → Option Price
  | [] => none
  | p :: rest => some (rest.foldl betterPrice p)

/-- One optional-scope tier of the cascade: the source only runs a tier's
query when its scope argument is supplied (`if agreement: ...`,
`if not price and party: ...`). -/
def tierQuery (arg : Option ℕ) (tier : ℕ → List Price) : Option Price :=
  match arg with
  | some a => pickBest (tier a)
  | none => none

/-- The `if not price and ...:` chaining of the source: keep an already
found price, otherwise move on to the next tier's result. -/
def orFirst (found next : Option Price) : Option Price :=
  match found with
  | some p => some p
  | none => next

/-- The resolution cascade of `resolve_component_pricing` (lines 380-399):
agreement tier, then party tier, then organization tier, then global tier,
the first match winning. -/
def firstMatch (qs : List Price) (dive_shop party agreement : Option ℕ) : Option Price :=
  orFirst (orFirst (orFirst
    (tierQuery agreement (agreementTier qs))
    (tierQuery party (partyTier qs)))
    (tierQuery dive_shop (orgTier qs)))
    (pickBest (globalTier qs))

/-- The result payload of `resolve_component_pricing`. -/
structure ResolvedPricing where
  charge_amount : ℚ
  charge_currency : String
  cost_amount : Option ℚ
  cost_currency : String
  price_rule_id : ℕ
  has_cost : Bool
  deriving DecidableEq

/-- The result dict built from a resolved price (lines 407-414):
`cost_currency` defaults to the charge currency, `has_cost` is Modelled from
the spec as the presence of a cost amount (the `Price.has_cost` property is
not under `src/`). -/
def resolvedFrom (price : Price) : ResolvedPricing :=
  ⟨price.amount, price.currency, price.cost_amount,
   price.cost_currency.getD price.currency, price.pk, price.cost_amount.isSome⟩

/-- `resolve_component_pricing` of `calculators.py`, local path (lines
372-414): resolve through the scope hierarchy and fail with `MissingPrice`
when no tier matches. -/
def resolve_component_pricing (prices : List Price) (catalog_item : ℕ)
    (dive_shop party agreement : Option ℕ) (as_of : ℤ) :
    Except PricingError ResolvedPricing :=
  match firstMatch (currentPrices prices catalog_item as_of) dive_shop party agreement with
  | none => .error .missingPrice
  | some price => .ok (resolvedFrom price)

/-- The boat-charter tier of the spec's worked example: base cost 1800,
four included divers, 150 per overage diver. -/
def demoBoatTier : BoatTier :=
  ⟨some 1800, some (.ok 4), some 150, some "MXN"⟩

/-- A boat-charter tier that is present but has every individual field
absent except the currency. -/
def emptyBoatTier : BoatTier :=
  ⟨none, none, none, some "USD"⟩

/-- A party-scoped price for catalog item 1 held by party 7. -/
def demoPartyPrice : Price :=
  ⟨1, none, some 7, none, 0, 0, none, 50, "MXN", none, none, 11⟩

/-- An organization-scoped price for the same catalog item 1 held by
organization 3. -/
def demoOrgPrice : Price :=
  ⟨1, none, none, some 3, 0, 0, none, 40, "MXN", none, none, 12⟩

/-- A price book holding both of the demo prices. -/
def demoPrices : List Price :=
  [demoPartyPrice, demoOrgPrice]

end Diveops

namespace Diveops

/-! Helper lemmas about the rounding primitive, truncation, and the
remainder-distribution loop. -/

theorem roundHalfEven_intCast (m : ℤ) : roundHalfEven (m : ℚ) = m := by
  simp [roundHalfEven]

theorem abs_roundHalfEven_sub_le (x : ℚ) : |(roundHalfEven x : ℚ) - x| ≤ 1 / 2 := by
  have h1 : ((⌊x⌋ : ℤ) : ℚ) ≤ x := Int.floor_le x
  have h2 : x < (⌊x⌋ : ℚ) + 1 := Int.lt_floor_add_one x
  unfold roundHalfEven
  split_ifs with hc1 hc2 hc3
  · rw [abs_le]; constructor <;> linarith
  · rw [not_lt] at hc1
    push_cast
    rw [abs_le]; constructor <;> linarith
  · rw [not_lt] at hc1 hc2
    rw [abs_le]; constructor <;> linarith
  · rw [not_lt] at hc1 hc2
    push_cast
    rw [abs_le]; constructor <;> linarith

theorem truncQ_intCast (m : ℤ) : truncQ (m : ℚ) = m := by
  unfold truncQ
  split_ifs <;> simp

theorem truncQ_natAbs (x : ℚ) : ((truncQ x).natAbs : ℤ) = ⌊|x|⌋ := by
  unfold truncQ
  split_ifs with h
  · rw [Int.natAbs_of_nonneg (Int.floor_nonneg.mpr h), abs_of_nonneg h]
  · push_neg at h
    rw [← Int.abs_eq_natAbs, abs_of_nonpos (Int.ceil_le.mpr (by push_cast; exact h.le)),
      abs_of_neg h, Int.floor_neg]

theorem addToFirst_length (inc : ℚ) (k : ℕ) (l : List ℚ) :
    (addToFirst inc k l).length = l.length := by
  induction k generalizing l with
  | zero => rfl
  | succ k ih =>
    cases l with
    | nil => rfl
    | cons x xs => simp [addToFirst, ih]

theorem addToFirst_sum (inc : ℚ) (k : ℕ) (l : List ℚ) (h : k ≤ l.length) :
    (addToFirst inc k l).sum = l.sum + k * inc := by
  induction k generalizing l with
  | zero => simp [addToFirst]
  | succ k ih =>
    cases l with
    | nil => simp at h
    | cons x xs =>
      simp only [addToFirst, List.sum_cons]
      rw [ih xs (by simpa using h)]
      push_cast
      ring

theorem addToFirst_getElem? (inc : ℚ) (k : ℕ) (l : List ℚ) (i : ℕ) :
    (addToFirst inc k l)[i]? = if i < k then l[i]?.map (· + inc) else l[i]? := by
  induction k generalizing l i with
  | zero => simp [addToFirst]
  | succ k ih =>
    cases l with
    | nil => simp [addToFirst]
    | cons x xs =>
      cases i with
      | zero => simp [addToFirst]
      | succ i => simp [addToFirst, ih, Nat.succ_lt_succ_iff]

/-! Helper lemmas characterising the allocator for a positive diver count. -/

theorem allocate_pos (s : ℚ) (n : ℤ) (hn : 0 < n) :
    allocate_shared_costs s n =
      if s - round_money (s / (n : ℚ)) 2 * (n : ℚ) = 0 then
        (round_money (s / (n : ℚ)) 2,
         List.replicate n.toNat (round_money (s / (n : ℚ)) 2))
      else
        (round_money (s / (n : ℚ)) 2,
         addToFirst
           (if 0 < s - round_money (s / (n : ℚ)) 2 * (n : ℚ) then 1 / 100 else -(1 / 100))
           (min (truncQ ((s - round_money (s / (n : ℚ)) 2 * (n : ℚ)) / (1 / 100))).natAbs n.toNat)
           (List.replicate n.toNat (round_money (s / (n : ℚ)) 2))) := by
  simp only [allocate_shared_costs]
  rw [if_neg (not_le.mpr hn)]

theorem allocate_fst (s : ℚ) (n : ℤ) (hn : 0 < n) :
    (allocate_shared_costs s n).1 = round_money (s / (n : ℚ)) 2 := by
  rw [allocate_pos _ _ hn]
  split_ifs <;> rfl

theorem allocate_length (s : ℚ) (n : ℤ) (hn : 0 < n) :
    (allocate_shared_costs s n).2.length = n.toNat := by
  rw [allocate_pos s n hn]
  split_ifs <;> simp [addToFirst_length]

theorem allocate_sum_cents (c : ℤ) (n : ℤ) (hn : 0 < n) :
    ((allocate_shared_costs ((c : ℚ) / 100) n).2).sum = (c : ℚ) / 100 := by
  have hnq : (0 : ℚ) < (n : ℚ) := by exact_mod_cast hn
  have hnne : (n : ℚ) ≠ 0 := ne_of_gt hnq
  have hnt : ((n.toNat : ℕ) : ℚ) = (n : ℚ) := by exact_mod_cast Int.toNat_of_nonneg hn.le
  set m : ℤ := roundHalfEven ((c : ℚ) / (n : ℚ)) with hm
  have harg : ((c : ℚ) / 100) / (n : ℚ) * 10 ^ 2 = (c : ℚ) / (n : ℚ) := by
    field_simp
    ring
  have hpd : round_money (((c : ℚ) / 100) / (n : ℚ)) 2 = (m : ℚ) / 100 := by
    rw [round_money, harg, ← hm]
    norm_num
  have hrem : (c : ℚ) / 100 - (m : ℚ) / 100 * (n : ℚ) = ((c - m * n : ℤ) : ℚ) / 100 := by
    push_cast
    ring
  rw [allocate_pos _ _ hn, hpd]
  simp only [hrem]
  by_cases hz : ((c - m * n : ℤ) : ℚ) / 100 = 0
  · rw [if_pos hz]
    have hz0 : (c : ℚ) = (m : ℚ) * (n : ℚ) := by
      rcases div_eq_zero_iff.mp hz with h | h
      · push_cast at h
        linarith
      · norm_num at h
    simp only [List.sum_replicate, nsmul_eq_mul, hnt]
    rw [hz0]
    ring
  · rw [if_neg hz]
    have hdiv : (((c - m * n : ℤ) : ℚ) / 100) / (1 / 100) = ((c - m * n : ℤ) : ℚ) := by
      field_simp
    rw [hdiv, truncQ_intCast]
    -- the rounded share is within half a cent of the exact share, so the
    -- remainder magnitude is at most half a cent per diver
    have hb : |(m : ℚ) - (c : ℚ) / (n : ℚ)| ≤ 1 / 2 := by
      have h := abs_roundHalfEven_sub_le ((c : ℚ) / (n : ℚ))
      rw [← hm] at h
      exact h
    obtain ⟨hb1, hb2⟩ := abs_le.mp hb
    have hid : (c : ℚ) / (n : ℚ) * (n : ℚ) = (c : ℚ) := div_mul_cancel₀ _ hnne
    have hle1 : (c : ℚ) - (m : ℚ) * (n : ℚ) ≤ (n : ℚ) := by
      nlinarith [mul_le_mul_of_nonneg_right hb1 hnq.le]
    have hle2 : -(n : ℚ) ≤ (c : ℚ) - (m : ℚ) * (n : ℚ) := by
      nlinarith [mul_le_mul_of_nonneg_right hb2 hnq.le]
    have hz1 : c - m * n ≤ n := by
      exact_mod_cast (by push_cast; linarith : ((c - m * n : ℤ) : ℚ) ≤ (n : ℚ))
    have hz2 : -n ≤ c - m * n := by
      exact_mod_cast (by push_cast; linarith : (-(n : ℤ) : ℚ) ≤ ((c - m * n : ℤ) : ℚ))
    have hk : (c - m * n).natAbs ≤ n.toNat := by omega
    rw [min_eq_left hk, addToFirst_sum _ _ _ (by rw [List.length_replicate]; exact hk)]
    simp only [List.sum_replicate, nsmul_eq_mul, hnt]
    have hxi : ((c - m * n : ℤ) : ℚ) = (((c - m * n : ℤ) : ℚ) / 100) * 100 := by ring
    have hcast : ((((c - m * n).natAbs : ℕ)) : ℚ) = (((c - m * n).natAbs : ℤ) : ℚ) :=
      (Int.cast_natCast _).symm
    rcases lt_trichotomy (c - m * n) 0 with hneg | hzero | hpos
    · have hx : ((c - m * n : ℤ) : ℚ) ≤ 0 := by exact_mod_cast hneg.le
      rw [if_neg (by rw [not_lt]; linarith)]
      have h1 : ((c - m * n).natAbs : ℤ) = -(c - m * n) := by omega
      rw [hcast, h1]
      push_cast
      ring
    · exfalso
      apply hz
      rw [hzero]
      norm_num
    · have hx : (0 : ℚ) < ((c - m * n : ℤ) : ℚ) := by exact_mod_cast hpos
      rw [if_pos (by linarith)]
      have h1 : ((c - m * n).natAbs : ℤ) = c - m * n := by omega
      rw [hcast, h1]
      push_cast
      ring

theorem allocate_elements (s : ℚ) (n : ℤ) (hn : 0 < n) (i : ℕ) (hi : i < n.toNat) :
    (allocate_shared_costs s n).2[i]? =
      some (if (i : ℤ) < min ⌊|s - round_money (s / (n : ℚ)) 2 * (n : ℚ)| / (1 / 100)⌋ n
            then round_money (s / (n : ℚ)) 2 +
              (if 0 < s - round_money (s / (n : ℚ)) 2 * (n : ℚ) then 1 / 100 else -(1 / 100))
            else round_money (s / (n : ℚ)) 2) := by
  rw [allocate_pos _ _ hn]
  set pd := round_money (s / (n : ℚ)) 2 with hpd
  by_cases hz : s - pd * (n : ℚ) = 0
  · rw [if_pos hz, hz]
    rw [List.getElem?_replicate, if_pos hi]
    simp only [abs_zero, zero_div, Int.floor_zero, min_eq_left hn.le]
    rw [if_neg (not_lt.mpr (Int.natCast_nonneg i))]
  · rw [if_neg hz]
    have habs : |(s - pd * (n : ℚ)) / (1 / 100)| = |s - pd * (n : ℚ)| / (1 / 100) := by
      rw [abs_div, abs_of_pos (by norm_num : (0:ℚ) < 1 / 100)]
    have hkz : ((min (truncQ ((s - pd * (n : ℚ)) / (1 / 100))).natAbs n.toNat : ℕ) : ℤ) =
        min ⌊|s - pd * (n : ℚ)| / (1 / 100)⌋ n := by
      rw [Nat.cast_min, truncQ_natAbs, habs, Int.toNat_of_nonneg hn.le]
    rw [addToFirst_getElem?]
    simp only [List.getElem?_replicate, hi, if_true, Option.map_some']
    simp only [← hkz, Nat.cast_lt]
    split_ifs <;> rfl

end Diveops

namespace Diveops

/-! Helper lemmas for the price-resolution cascade. -/

theorem foldl_betterPrice_mem (p : Price) (l : List Price) :
    l.foldl betterPrice p ∈ p :: l := by
  induction l generalizing p with
  | nil => simp
  | cons q rest ih =>
    simp only [List.foldl_cons]
    have hbq : betterPrice p q = p ∨ betterPrice p q = q := by
      unfold betterPrice
      split_ifs
      · exact Or.inr rfl
      · exact Or.inl rfl
    rcases List.mem_cons.mp (ih (betterPrice p q)) with h | h
    · rcases hbq with hb | hb
      · rw [h, hb]
        exact List.mem_cons_self _ _
      · rw [h, hb]
        exact List.mem_cons_of_mem _ (List.mem_cons_self _ _)
    · exact List.mem_cons_of_mem _ (List.mem_cons_of_mem _ h)

theorem pickBest_eq_none (l : List Price) : pickBest l = none ↔ l = [] := by
  cases l <;> simp [pickBest]

theorem pickBest_mem (l : List Price) (p : Price) (h : pickBest l = some p) : p ∈ l := by
  cases l with
  | nil => simp [pickBest] at h
  | cons q rest =>
    simp only [pickBest, Option.some.injEq] at h
    rw [← h]
    exact foldl_betterPrice_mem q rest

theorem partyTier_mem (qs : List Price) (pa : ℕ) (p : Price) (h : p ∈ partyTier qs pa) :
    p.party = some pa ∧ p.agreement = none := by
  have hf := List.mem_filter.mp h
  exact of_decide_eq_true hf.2

theorem orFirst_eq_none (a b : Option Price) : orFirst a b = none ↔ a = none ∧ b = none := by
  cases a <;> simp [orFirst]

theorem tierQuery_eq_none (arg : Option ℕ) (tier : ℕ → List Price) :
    tierQuery arg tier = none ↔ ∀ a, arg = some a → tier a = [] := by
  cases arg <;> simp [tierQuery, pickBest_eq_none]

theorem firstMatch_eq_none (qs : List Price) (ds pa ag : Option ℕ) :
    firstMatch qs ds pa ag = none ↔
      (∀ a, ag = some a → agreementTier qs a = []) ∧
      (∀ x, pa = some x → partyTier qs x = []) ∧
      (∀ o, ds = some o → orgTier qs o = []) ∧
      globalTier qs = [] := by
  unfold firstMatch
  rw [orFirst_eq_none, orFirst_eq_none, orFirst_eq_none,
    tierQuery_eq_none, tierQuery_eq_none, tierQuery_eq_none, pickBest_eq_none]
  tauto

theorem resolve_missing_iff (prices : List Price) (ci : ℕ) (ds pa ag : Option ℕ) (as_of : ℤ) :
    resolve_component_pricing prices ci ds pa ag as_of = .error .missingPrice ↔
      firstMatch (currentPrices prices ci as_of) ds pa ag = none := by
  unfold resolve_component_pricing
  rcases h : firstMatch (currentPrices prices ci as_of) ds pa ag with _ | p <;> simp

theorem resolve_of_party (prices : List Price) (ci shop pa : ℕ) (ag : Option ℕ) (as_of : ℤ)
    (hag : ∀ a, ag = some a → agreementTier (currentPrices prices ci as_of) a = [])
    (hpa : partyTier (currentPrices prices ci as_of) pa ≠ []) :
    ∃ p, p ∈ partyTier (currentPrices prices ci as_of) pa ∧
      p.party = some pa ∧ p.agreement = none ∧
      resolve_component_pricing prices ci (some shop) (some pa) ag as_of = .ok (resolvedFrom p) := by
  obtain ⟨p, hp⟩ : ∃ p, pickBest (partyTier (currentPrices prices ci as_of) pa) = some p := by
    rcases h : pickBest (partyTier (currentPrices prices ci as_of) pa) with _ | p
    · exact absurd ((pickBest_eq_none _).mp h) hpa
    · exact ⟨p, rfl⟩
  have hmem := pickBest_mem _ _ hp
  obtain ⟨hparty, hagp⟩ := partyTier_mem _ _ _ hmem
  refine ⟨p, hmem, hparty, hagp, ?_⟩
  have hfm : firstMatch (currentPrices prices ci as_of) (some shop) (some pa) ag = some p := by
    unfold firstMatch
    rw [(tierQuery_eq_none _ _).mpr hag]
    simp [tierQuery, orFirst, hp]
  unfold resolve_component_pricing
  rw [hfm]

end Diveops

namespace Diveops

/-! The claims. -/

/-- C1: for every shared_total expressible in whole cents (an exact multiple
of 0.01) and every diver_count > 0, allocate_shared_costs returns a list of
length exactly diver_count whose sum equals shared_total exactly — no penny
lost or gained. -/
theorem allocation_round_trip_sum (shared_total : ℚ) (diver_count : ℤ)
    (hcents : ∃ c : ℤ, shared_total = (c : ℚ) / 100) (hpos : 0 < diver_count) :
    (allocate_shared_costs shared_total diver_count).2.length = diver_count.toNat ∧
    (allocate_shared_costs shared_total diver_count).2.sum = shared_total := by
  obtain ⟨c, rfl⟩ := hcents
  exact ⟨allocate_length _ _ hpos, allocate_sum_cents c _ hpos⟩

/-- Witness for C1 at shared_total 100.00 and diver_count 3. -/
theorem allocation_round_trip_sum_witness :
    (∃ c : ℤ, (100 : ℚ) = (c : ℚ) / 100) ∧ (0 : ℤ) < 3 ∧
    ((allocate_shared_costs 100 3).2.length = (3 : ℤ).toNat ∧
     (allocate_shared_costs 100 3).2.sum = 100) :=
  ⟨⟨10000, by norm_num⟩, by norm_num,
   allocation_round_trip_sum 100 3 ⟨10000, by norm_num⟩ (by norm_num)⟩

/-- C2: round_money rounds half to even at the requested number of decimal
places: 2.5→2, 3.5→4, 4.5→4, 5.5→6 at 0 places, and 999999.995→1000000.00
at 2 places. -/
theorem round_money_bankers_table :
    round_money (2.5 : ℚ) 0 = 2 ∧ round_money (3.5 : ℚ) 0 = 4 ∧
    round_money (4.5 : ℚ) 0 = 4 ∧ round_money (5.5 : ℚ) 0 = 6 ∧
    round_money (999999.995 : ℚ) 2 = 1000000 := by
  norm_num [round_money, roundHalfEven]

/-- C3: for every positive diver_count and an agreement whose boat_charter
tier parses, calculate_boat_cost satisfies overage_count = max 0
(diver_count - included_divers), total = base_cost + overage_count *
overage_per_diver and per_diver = round_money (total / diver_count); when
diver_count ≤ included_divers the overage is zero and the total is the base
cost. -/
theorem boat_cost_tier_invariants (tier : BoatTier) (diver_count included : ℤ)
    (hpos : 0 < diver_count)
    (hinc : tier.included_divers.getD (.ok 4) = .ok included) :
    ∃ r, calculate_boat_cost (some ⟨some tier⟩) diver_count = .ok r ∧
      r.overage_count = max 0 (diver_count - included) ∧
      r.total.amount = tier.base_cost.getD 0 +
        ((max 0 (diver_count - included) : ℤ) : ℚ) * tier.overage_per_diver.getD 0 ∧
      r.per_diver.amount = round_money (r.total.amount / (diver_count : ℚ)) 2 ∧
      (diver_count ≤ included →
        r.overage_count = 0 ∧ r.total.amount = tier.base_cost.getD 0) := by
  simp only [calculate_boat_cost]
  rw [if_neg (not_le.mpr hpos)]
  simp only [hinc]
  by_cases hle : diver_count ≤ included
  · rw [if_pos hle]
    refine ⟨_, rfl, ?_, ?_, rfl, fun _ => ⟨rfl, rfl⟩⟩
    · rw [max_eq_left (by linarith : diver_count - included ≤ 0)]
    · rw [max_eq_left (by linarith : diver_count - included ≤ 0)]
      push_cast
      ring
  · rw [if_neg hle]
    refine ⟨_, rfl, ?_, ?_, rfl, fun h => absurd h hle⟩
    · rw [max_eq_right (by linarith : (0:ℤ) ≤ diver_count - included)]
    · rw [max_eq_right (by linarith : (0:ℤ) ≤ diver_count - included)]

/-- Witness for C3 at base_cost 1800, included_divers 4, overage_per_diver
150 and diver_count 6: overage_count 2, total 2100, per_diver 350. -/
theorem boat_cost_tier_invariants_witness :
    calculate_boat_cost (some ⟨some demoBoatTier⟩) 6 =
      .ok ⟨⟨2100, "MXN"⟩, ⟨350, "MXN"⟩, ⟨1800, "MXN"⟩, 2, ⟨150, "MXN"⟩, 4, 6⟩ ∧
    ((0 : ℤ) < 6 ∧ demoBoatTier.included_divers.getD (.ok 4) = .ok 4) ∧
    (∃ r, calculate_boat_cost (some ⟨some demoBoatTier⟩) 6 = .ok r ∧
      r.overage_count = max 0 (6 - 4) ∧
      r.total.amount = demoBoatTier.base_cost.getD 0 +
        ((max 0 ((6 : ℤ) - 4) : ℤ) : ℚ) * demoBoatTier.overage_per_diver.getD 0 ∧
      r.per_diver.amount = round_money (r.total.amount / ((6 : ℤ) : ℚ)) 2 ∧
      ((6 : ℤ) ≤ 4 → r.overage_count = 0 ∧ r.total.amount = demoBoatTier.base_cost.getD 0)) :=
  ⟨by norm_num [calculate_boat_cost, demoBoatTier, round_money, roundHalfEven],
   ⟨by norm_num, rfl⟩,
   boat_cost_tier_invariants demoBoatTier 6 4 (by norm_num) rfl⟩

/-- C4: for a positive diver_count, the remainder is distributed in 0.01
increments to the lowest-indexed entries first: exactly the first
min(floor(just the remainder magnitude in cents), diver_count) entries are
per_diver plus the increment (+0.01 when remainder positive, -0.01 when
negative), all later entries equal per_diver. -/
theorem allocation_remainder_placement (shared_total : ℚ) (diver_count : ℤ)
    (hpos : 0 < diver_count) :
    (allocate_shared_costs shared_total diver_count).1 =
      round_money (shared_total / (diver_count : ℚ)) 2 ∧
    (allocate_shared_costs shared_total diver_count).2.length = diver_count.toNat ∧
    ∀ i : ℕ, i < diver_count.toNat →
      (allocate_shared_costs shared_total diver_count).2[i]? =
        some (if (i : ℤ) < min
                ⌊|shared_total - round_money (shared_total / (diver_count : ℚ)) 2 * (diver_count : ℚ)| / (1 / 100)⌋
                diver_count
              then round_money (shared_total / (diver_count : ℚ)) 2 +
                (if 0 < shared_total - round_money (shared_total / (diver_count : ℚ)) 2 * (diver_count : ℚ)
                 then 1 / 100 else -(1 / 100))
              else round_money (shared_total / (diver_count : ℚ)) 2) :=
  ⟨allocate_fst _ _ hpos, allocate_length _ _ hpos,
   fun i hi => allocate_elements shared_total diver_count hpos i hi⟩

/-- Witness for C4 at shared_total 100.00 and diver_count 3: per_diver is
33.33 and the amounts are 33.34, 33.33, 33.33. -/
theorem allocation_remainder_placement_witness :
    allocate_shared_costs 100 3 = (33.33, [33.34, 33.33, 33.33]) ∧ (0 : ℤ) < 3 ∧
    ((allocate_shared_costs 100 3).1 = round_money (100 / ((3 : ℤ) : ℚ)) 2 ∧
     (allocate_shared_costs 100 3).2.length = (3 : ℤ).toNat ∧
     ∀ i : ℕ, i < (3 : ℤ).toNat →
       (allocate_shared_costs 100 3).2[i]? =
         some (if (i : ℤ) < min
                 ⌊|100 - round_money (100 / ((3 : ℤ) : ℚ)) 2 * ((3 : ℤ) : ℚ)| / (1 / 100)⌋
                 3
               then round_money (100 / ((3 : ℤ) : ℚ)) 2 +
                 (if 0 < 100 - round_money (100 / ((3 : ℤ) : ℚ)) 2 * ((3 : ℤ) : ℚ)
                  then 1 / 100 else -(1 / 100))
               else round_money (100 / ((3 : ℤ) : ℚ)) 2)) :=
  ⟨by
    norm_num [allocate_shared_costs, round_money, roundHalfEven, truncQ]
    norm_num [addToFirst, List.replicate],
   by norm_num,
   allocation_remainder_placement 100 3 (by norm_num)⟩

end Diveops

namespace Diveops

/-- Counterexample to C5 as stated: a boat_charter tier that is present but
missing the base_cost, included_divers and overage_per_diver keys does not
fail with ConfigurationError — the calculation succeeds and silently
substitutes the zero default for the missing base cost. -/
theorem boat_cost_silent_zero_cex :
    calculate_boat_cost (some ⟨some emptyBoatTier⟩) 2 =
      .ok ⟨⟨0, "USD"⟩, ⟨0, "USD"⟩, ⟨0, "USD"⟩, 0, ⟨0, "USD"⟩, 4, 2⟩ ∧
    ¬ calculate_boat_cost (some ⟨some emptyBoatTier⟩) 2 = .error .configurationError := by
  constructor
  · norm_num [calculate_boat_cost, emptyBoatTier, round_money, roundHalfEven]
  · intro h
    simp [calculate_boat_cost, emptyBoatTier] at h

/-- C5 (amended): calculate_boat_cost fails with ConfigurationError when the
boat_charter key is missing (or empty), and when a present included_divers
value is malformed in the caught exception classes; but individually
missing tier fields are silently defaulted — base_cost to 0 (a zero cost),
overage_per_diver to 0, included_divers to 4 and currency to "MXN". -/
theorem boat_cost_config_error_policy (tier : BoatTier) (diver_count : ℤ)
    (hpos : 0 < diver_count) :
    calculate_boat_cost (some ⟨none⟩) diver_count = .error .configurationError ∧
    (tier.included_divers = some .malformed →
      calculate_boat_cost (some ⟨some tier⟩) diver_count = .error .configurationError) ∧
    (tier.base_cost = none → tier.overage_per_diver = none → tier.included_divers = none →
      ∃ r, calculate_boat_cost (some ⟨some tier⟩) diver_count = .ok r ∧
        r.base_cost.amount = 0 ∧ r.overage_per_diver.amount = 0 ∧ r.included_divers = 4 ∧
        r.total.amount = 0 ∧ r.total.currency = tier.currency.getD "MXN") := by
  refine ⟨?_, ?_, ?_⟩
  · simp only [calculate_boat_cost]
    rw [if_neg (not_le.mpr hpos)]
  · intro h
    simp [calculate_boat_cost, not_le.mpr hpos, h]
  · intro hb ho hi
    obtain ⟨bc, inc, ov, cur⟩ := tier
    simp only at hb ho hi
    subst hb; subst ho; subst hi
    simp only [calculate_boat_cost, Option.getD_none]
    rw [if_neg (not_le.mpr hpos)]
    by_cases hle : diver_count ≤ 4
    · rw [if_pos hle]
      exact ⟨_, rfl, rfl, rfl, rfl, rfl, rfl⟩
    · rw [if_neg hle]
      refine ⟨_, rfl, rfl, rfl, rfl, ?_, rfl⟩
      push_cast
      ring

/-- Witness for the amended C5 at the empty tier and diver_count 2. -/
theorem boat_cost_config_error_policy_witness :
    (0 : ℤ) < 2 ∧
    (calculate_boat_cost (some ⟨none⟩) 2 = .error .configurationError ∧
     (emptyBoatTier.included_divers = some .malformed →
       calculate_boat_cost (some ⟨some emptyBoatTier⟩) 2 = .error .configurationError) ∧
     (emptyBoatTier.base_cost = none → emptyBoatTier.overage_per_diver = none →
       emptyBoatTier.included_divers = none →
       ∃ r, calculate_boat_cost (some ⟨some emptyBoatTier⟩) 2 = .ok r ∧
         r.base_cost.amount = 0 ∧ r.overage_per_diver.amount = 0 ∧ r.included_divers = 4 ∧
         r.total.amount = 0 ∧ r.total.currency = emptyBoatTier.currency.getD "MXN")) :=
  ⟨by norm_num, boat_cost_config_error_policy emptyBoatTier 2 (by norm_num)⟩

/-- Counterexample to C6 as stated: at diver_count 0 and fills_count 0 both
calculators fail with ConfigurationError, not with InvalidInput. -/
theorem nonpositive_count_error_class_cex :
    calculate_boat_cost none 0 = .error .configurationError ∧
    ¬ calculate_boat_cost none 0 = .error .invalidInput ∧
    calculate_gas_fills none "air" 0 none = .error .configurationError ∧
    ¬ calculate_gas_fills none "air" 0 none = .error .invalidInput := by
  refine ⟨rfl, ?_, rfl, ?_⟩ <;>
    · intro h
      simp [calculate_boat_cost, calculate_gas_fills] at h

/-- C6 (amended): every non-positive diver_count makes calculate_boat_cost
fail, and every non-positive fills_count makes calculate_gas_fills fail,
in both cases with ConfigurationError ("count must be positive"), not
InvalidInput. -/
theorem nonpositive_counts_config_error (agreement : Option AgreementTerms)
    (gas : Option GasTerms) (gas_type : String) (override : Option ℚ)
    (diver_count fills_count : ℤ)
    (hd : diver_count ≤ 0) (hf : fills_count ≤ 0) :
    calculate_boat_cost agreement diver_count = .error .configurationError ∧
    calculate_gas_fills gas gas_type fills_count override = .error .configurationError := by
  constructor
  · simp only [calculate_boat_cost]
    rw [if_pos hd]
  · simp only [calculate_gas_fills]
    rw [if_pos hf]

/-- Witness for the amended C6 at diver_count 0 and fills_count 0. -/
theorem nonpositive_counts_config_error_witness :
    (0 : ℤ) ≤ 0 ∧
    (calculate_boat_cost none 0 = .error .configurationError ∧
     calculate_gas_fills none "air" 0 none = .error .configurationError) :=
  ⟨le_refl 0, nonpositive_counts_config_error none none "air" none 0 0 (le_refl 0) (le_refl 0)⟩

/-- C7: price resolution follows agreement > party > organization > global
with the first matching tier winning: when the agreement tier yields no
match and the party tier is non-empty, the resolved price is party-scoped
(never organization-scoped), and the resolution fails with MissingPrice
exactly when every queried tier yields no match. -/
theorem resolution_tier_precedence (prices : List Price) (ci shop pa : ℕ)
    (ag : Option ℕ) (as_of : ℤ)
    (hag : ∀ a, ag = some a → agreementTier (currentPrices prices ci as_of) a = [])
    (hpa : partyTier (currentPrices prices ci as_of) pa ≠ []) :
    (∃ p, p ∈ partyTier (currentPrices prices ci as_of) pa ∧
       p.party = some pa ∧ p.agreement = none ∧
       resolve_component_pricing prices ci (some shop) (some pa) ag as_of =
         .ok (resolvedFrom p)) ∧
    (∀ ds2 pa2 ag2,
       resolve_component_pricing prices ci ds2 pa2 ag2 as_of = .error .missingPrice ↔
         (∀ a, ag2 = some a → agreementTier (currentPrices prices ci as_of) a = []) ∧
         (∀ x, pa2 = some x → partyTier (currentPrices prices ci as_of) x = []) ∧
         (∀ o, ds2 = some o → orgTier (currentPrices prices ci as_of) o = []) ∧
         globalTier (currentPrices prices ci as_of) = []) := by
  refine ⟨resolve_of_party prices ci shop pa ag as_of hag hpa, ?_⟩
  intro ds2 pa2 ag2
  rw [resolve_missing_iff, firstMatch_eq_none]

/-- Witness for C7 on a price book holding a party-scoped and an
organization-scoped price for the same catalog item. -/
theorem resolution_tier_precedence_witness :
    (∀ a, (none : Option ℕ) = some a → agreementTier (currentPrices demoPrices 1 0) a = []) ∧
    partyTier (currentPrices demoPrices 1 0) 7 ≠ [] ∧
    ((∃ p, p ∈ partyTier (currentPrices demoPrices 1 0) 7 ∧
        p.party = some 7 ∧ p.agreement = none ∧
        resolve_component_pricing demoPrices 1 (some 3) (some 7) none 0 =
          .ok (resolvedFrom p)) ∧
     (∀ ds2 pa2 ag2,
        resolve_component_pricing demoPrices 1 ds2 pa2 ag2 0 = .error .missingPrice ↔
          (∀ a, ag2 = some a → agreementTier (currentPrices demoPrices 1 0) a = []) ∧
          (∀ x, pa2 = some x → partyTier (currentPrices demoPrices 1 0) x = []) ∧
          (∀ o, ds2 = some o → orgTier (currentPrices demoPrices 1 0) o = []) ∧
          globalTier (currentPrices demoPrices 1 0) = [])) :=
  And.intro (fun a h => nomatch h) (And.intro (by decide)
    (resolution_tier_precedence demoPrices 1 3 7 none 0 (fun a h => nomatch h) (by decide)))

/-- C8: when the remote back-end is enabled but unreachable,
allocate_shared_costs falls back to the local implementation, returning
exactly the local result with no error surfaced, and that result still sums
to the shared total. -/
theorem rust_unreachable_fallback (shared_total : ℚ) (diver_count : ℤ)
    (hcents : ∃ c : ℤ, shared_total = (c : ℚ) / 100) (hpos : 0 < diver_count) :
    allocate_shared_costs_dispatch true .unavailable shared_total diver_count =
      allocate_shared_costs shared_total diver_count ∧
    (allocate_shared_costs_dispatch true .unavailable shared_total diver_count).2.sum =
      shared_total := by
  obtain ⟨c, rfl⟩ := hcents
  exact ⟨rfl, allocate_sum_cents c _ hpos⟩

/-- Witness for C8 at shared_total 100.00 and diver_count 3. -/
theorem rust_unreachable_fallback_witness :
    (∃ c : ℤ, (100 : ℚ) = (c : ℚ) / 100) ∧ (0 : ℤ) < 3 ∧
    (allocate_shared_costs_dispatch true .unavailable 100 3 = allocate_shared_costs 100 3 ∧
     (allocate_shared_costs_dispatch true .unavailable 100 3).2.sum = 100) :=
  ⟨⟨10000, by norm_num⟩, by norm_num,
   rust_unreachable_fallback 100 3 ⟨10000, by norm_num⟩ (by norm_num)⟩

/-- C9: for every shared_total and every diver_count ≤ 0,
allocate_shared_costs returns (0, []) rather than an error. -/
theorem allocation_degenerate_empty (shared_total : ℚ) (diver_count : ℤ)
    (hnp : diver_count ≤ 0) :
    allocate_shared_costs shared_total diver_count = (0, []) := by
  simp only [allocate_shared_costs]
  rw [if_pos hnp]

/-- Witness for C9 at shared_total 100.00 and diver_count 0. -/
theorem allocation_degenerate_empty_witness :
    (0 : ℤ) ≤ 0 ∧ allocate_shared_costs 100 0 = (0, []) :=
  ⟨le_refl 0, allocation_degenerate_empty 100 0 (le_refl 0)⟩

/-- C10: round_money is idempotent — re-rounding an already rounded amount
at the same number of places never changes it. -/
theorem round_money_idempotent (x : ℚ) (places : ℕ) :
    round_money (round_money x places) places = round_money x places := by
  unfold round_money
  rw [div_mul_cancel₀ _ (pow_ne_zero places (by norm_num : (10:ℚ) ≠ 0)), roundHalfEven_intCast]

end Diveops
